import Mathlib

/-!
Verification of the ledger-anchoring core of the fabric_blockchain
repository: the canonical hasher (`src/backend/utils/hash.js`), the
user-controller hash (`src/backend/controllers/record.controller.js`),
the migration script's retry / idempotence logic
(`src/backend/scripts/migrate-users-to-blockchain.js`), the smart-contract
routes and nonce manager (`src/sc_blockchain`), the blockchain service's
retrieval paths, and the Fabric gateway session lifecycle.

JavaScript values are modelled by the inductive type `Js`; JS numbers are
modelled as integers plus the non-finite values NaN / Infinity / -Infinity
(sufficient for all values the claims exercise).  Strings are Lean strings;
key ordering uses Lean's lexicographic `String` order, which agrees with
JavaScript's sort on the ASCII keys appearing in the repository.
-/

namespace FabricChain

/-- Model of a JavaScript number: a finite integral value or one of the
non-finite values (`NaN`, `Infinity`, `-Infinity`). -/
inductive JsNum where
  | int (n : Int)
  | nan
  | inf
  | negInf
deriving DecidableEq, Repr

/-- Model of a JavaScript value as consumed by the hashing utilities:
`null`, `undefined`, booleans, numbers, strings, arrays, and plain objects
(field lists in insertion order). -/
inductive Js where
  | null
  | undef
  | bool (b : Bool)
  | num (n : JsNum)
  | str (s : String)
  | arr (elems : List Js)
  | obj (fields : List (String × Js))
deriving Repr

mutual

/-- Size measure used for strong induction over `Js` values. -/
def Js.size : Js → Nat
  | .arr xs => Js.sizeList xs + 1
  | .obj f => Js.sizeFields f + 1
  | _ => 1

/-- Size of a list of `Js` values. -/
def Js.sizeList : List Js → Nat
  | [] => 0
  | x :: xs => Js.size x + Js.sizeList xs

/-- Size of a field list. -/
def Js.sizeFields : List (String × Js) → Nat
  | [] => 0
  | kv :: f => Js.size kv.2 + Js.sizeFields f

end

theorem Js.size_pos : ∀ x : Js, 0 < x.size := by
  intro x
  cases x <;> simp [Js.size]

/-- One hexadecimal digit, lowercase (as emitted by `JSON.stringify` for
control-character escapes). -/
def hexDigit (n : Nat) : Char :=
  if n < 10 then Char.ofNat (48 + n) else Char.ofNat (87 + n)

/-- The `\u00XX` escape for a control character code. -/
def uEscape (n : Nat) : String :=
  "\\u00" ++ String.mk [hexDigit (n / 16 % 16), hexDigit (n % 16)]

/-- Escape of a single character inside a JSON string literal, following
`JSON.stringify` (QuoteJSONString). -/
def escChar (c : Char) : String :=
  if c = '"' then "\\\""
  else if c = '\\' then "\\\\"
  else if c = '\x08' then "\\b"
  else if c = '\x0c' then "\\f"
  else if c = '\n' then "\\n"
  else if c = '\r' then "\\r"
  else if c = '\t' then "\\t"
  else if c.toNat < 0x20 then uEscape c.toNat
  else String.singleton c

/-- Rendering by `JSON.stringify` of a string value (quoted and escaped). -/
def quoteJs (s : String) : String :=
  "\"" ++ String.join (s.toList.map escChar) ++ "\""

/-- Rendering by `JSON.stringify` of a number.  Non-finite values serialize
as the literal `null` (ECMAScript: `JSON.stringify(NaN) === "null"`). -/
def numToJson : JsNum → String
  | .int n => toString n
  | .nan => "null"
  | .inf => "null"
  | .negInf => "null"

/-- Key-ordering relation on rendered fields, used to model
`Object.keys(obj).sort()`: compare by the key component.  The comparison
is on character lists, which coincides with the `String` order
(`String.le_iff_toList_le`). -/
def pairKeyLe (a b : String × String) : Prop := a.1.toList ≤ b.1.toList

theorem pairKeyLe_iff_string_le (a b : String × String) :
    pairKeyLe a b ↔ a.1 ≤ b.1 :=
  Iff.symm String.le_iff_toList_le

instance : DecidableRel pairKeyLe := fun a b =>
  decidable_of_iff (a.1.toList ≤ b.1.toList) Iff.rfl

instance : IsTotal (String × String) pairKeyLe := ⟨fun a b => le_total a.1.toList b.1.toList⟩

instance : IsTrans (String × String) pairKeyLe :=
  ⟨fun _ _ _ hab hbc => le_trans hab hbc⟩

/-- Stable sort of (key, rendered value) pairs by key.  `canonicalizeJSON`
in the source sorts `Object.keys(obj)` and then renders each looked-up
value; since JavaScript object keys are unique and the comparator looks
only at keys, sorting the (key, rendered value) pairs by key gives the
same sequence. -/
def sortPairs (l : List (String × String)) : List (String × String) :=
  List.insertionSort pairKeyLe l

/-- Rendering of one already-canonicalized field as `"key":value`.  The
key is interpolated verbatim (template literal in the source), not
escaped. -/
def renderPair (kv : String × String) : String :=
  "\"" ++ kv.1 ++ "\":" ++ kv.2

mutual

/-- Function `canonicalizeJSON` from `src/backend/utils/hash.js`:
null / undefined become the literal `null`; scalars go through
`JSON.stringify`; arrays map element-wise joined with `,`; objects render
their fields sorted by key as `"key":value`. -/
def canonicalizeJSON : Js → String
  | .null => "null"
  | .undef => "null"
  | .bool b => if b then "true" else "false"
  | .num n => numToJson n
  | .str s => quoteJs s
  | .arr xs => "[" ++ String.intercalate "," (canonList xs) ++ "]"
  | .obj f =>
      "\x7b" ++ String.intercalate "," ((sortPairs (canonPairs f)).map renderPair) ++ "\x7d"

/-- Element-wise canonicalization of an array. -/
def canonList : List Js → List String
  | [] => []
  | x :: xs => canonicalizeJSON x :: canonList xs

/-- Canonicalization of each field's value, keeping the key. -/
def canonPairs : List (String × Js) → List (String × String)
  | [] => []
  | kv :: f => (kv.1, canonicalizeJSON kv.2) :: canonPairs f

end

/-- Function `computeHash` from `src/backend/utils/hash.js`: SHA-256 of the
canonical string, hex-encoded with a `0x` prefix.  The digest primitive
(`crypto.createHash('sha256')`) is an external library call, so it is a
parameter: every theorem about digest equality holds for an arbitrary
digest function, which is exactly what the source guarantees. -/
def computeHash (sha : String → String) (data : Js) : String :=
  "0x" ++ sha (canonicalizeJSON data)

/-- Function `verifyHash` from `src/backend/utils/hash.js`. -/
def verifyHash (sha : String → String) (data : Js) (expectedHash : String) : Bool :=
  computeHash sha data == expectedHash

example :
    canonicalizeJSON (.obj [("b", .num (.int 2)), ("a", .num (.int 1))]) =
      "\x7b\"a\":1,\"b\":2\x7d" := by
  simp only [canonicalizeJSON, canonPairs, sortPairs, renderPair, numToJson,
    List.insertionSort, List.orderedInsert]
  decide

example :
    canonicalizeJSON (.obj [("a", .num (.int 1)), ("b", .num (.int 2))]) =
      "\x7b\"a\":1,\"b\":2\x7d" := by
  simp only [canonicalizeJSON, canonPairs, sortPairs, renderPair, numToJson,
    List.insertionSort, List.orderedInsert]
  decide

example :
    canonicalizeJSON (.obj [("a", .num (.int 1)), ("b", .num (.int 3))]) =
      "\x7b\"a\":1,\"b\":3\x7d" := by
  simp only [canonicalizeJSON, canonPairs, sortPairs, renderPair, numToJson,
    List.insertionSort, List.orderedInsert]
  decide

example : canonicalizeJSON (.obj []) = "\x7b\x7d" := by
  simp only [canonicalizeJSON, canonPairs, sortPairs, renderPair,
    List.insertionSort]
  decide

example :
    canonicalizeJSON (.arr [.str "x", .num .nan, .undef]) =
      "[\"x\",null,null]" := by
  simp only [canonicalizeJSON, canonList, numToJson, quoteJs, escChar]
  decide

/-! ## Well-formedness and key-order equivalence

JavaScript objects cannot carry two properties with the same key, so a
value arriving from JavaScript is well-formed in the following sense. -/

mutual

/-- Well-formedness: object keys are pairwise distinct, recursively. -/
def Js.WF : Js → Prop
  | .arr xs => Js.WFList xs
  | .obj f => (f.map Prod.fst).Nodup ∧ Js.WFFields f
  | _ => True

/-- Well-formedness of every element of an array. -/
def Js.WFList : List Js → Prop
  | [] => True
  | x :: xs => Js.WF x ∧ Js.WFList xs

/-- Well-formedness of every field value. -/
def Js.WFFields : List (String × Js) → Prop
  | [] => True
  | kv :: f => Js.WF kv.2 ∧ Js.WFFields f

end

theorem Js.WFList_iff : ∀ xs : List Js, Js.WFList xs ↔ ∀ x ∈ xs, Js.WF x := by
  intro xs
  induction xs with
  | nil => simp [Js.WFList]
  | cons x xs ih => simp [Js.WFList, ih]

theorem Js.WFFields_iff :
    ∀ f : List (String × Js), Js.WFFields f ↔ ∀ kv ∈ f, Js.WF kv.2 := by
  intro f
  induction f with
  | nil => simp [Js.WFFields]
  | cons kv f ih => simp [Js.WFFields, ih]

theorem Js.size_le_sizeList {x : Js} :
    ∀ {xs : List Js}, x ∈ xs → Js.size x ≤ Js.sizeList xs := by
  intro xs hmem
  induction xs with
  | nil => cases hmem
  | cons y ys ih =>
      rcases List.mem_cons.mp hmem with h | h
      · subst h
        simp [Js.sizeList]
      · calc Js.size x ≤ Js.sizeList ys := ih h
          _ ≤ Js.size y + Js.sizeList ys := Nat.le_add_left _ _
          _ = Js.sizeList (y :: ys) := by simp [Js.sizeList]

theorem Js.size_le_sizeFields {kv : String × Js} :
    ∀ {f : List (String × Js)}, kv ∈ f → Js.size kv.2 ≤ Js.sizeFields f := by
  intro f hmem
  induction f with
  | nil => cases hmem
  | cons kw g ih =>
      rcases List.mem_cons.mp hmem with h | h
      · subst h
        simp [Js.sizeFields]
      · calc Js.size kv.2 ≤ Js.sizeFields g := ih h
          _ ≤ Js.size kw.2 + Js.sizeFields g := Nat.le_add_left _ _
          _ = Js.sizeFields (kw :: g) := by simp [Js.sizeFields]

mutual

/-- Two values are equal up to the insertion order of mapping keys, at
every nesting depth: scalars must be identical, arrays must match
element-wise, and an object's field list may be reordered arbitrarily
after relating values pointwise. -/
inductive KeyOrderEquiv : Js → Js → Prop where
  | null : KeyOrderEquiv .null .null
  | undef : KeyOrderEquiv .undef .undef
  | bool (b : Bool) : KeyOrderEquiv (.bool b) (.bool b)
  | num (n : JsNum) : KeyOrderEquiv (.num n) (.num n)
  | str (s : String) : KeyOrderEquiv (.str s) (.str s)
  | arr {xs ys : List Js} : KeyOrderEquivList xs ys →
      KeyOrderEquiv (.arr xs) (.arr ys)
  | obj {f g h : List (String × Js)} : KeyOrderEquivFields f g →
      List.Perm g h → KeyOrderEquiv (.obj f) (.obj h)

/-- Element-wise key-order equivalence of arrays. -/
inductive KeyOrderEquivList : List Js → List Js → Prop where
  | nil : KeyOrderEquivList [] []
  | cons {x y : Js} {xs ys : List Js} : KeyOrderEquiv x y →
      KeyOrderEquivList xs ys → KeyOrderEquivList (x :: xs) (y :: ys)

/-- Pointwise key-order equivalence of field lists (same keys in the
same positions, values equivalent). -/
inductive KeyOrderEquivFields : List (String × Js) → List (String × Js) → Prop where
  | nil : KeyOrderEquivFields [] []
  | cons {k : String} {x y : Js} {f g : List (String × Js)} :
      KeyOrderEquiv x y → KeyOrderEquivFields f g →
      KeyOrderEquivFields ((k, x) :: f) ((k, y) :: g)

end

/-- Keys of the canonicalized field list are the original keys. -/
theorem canonPairs_map_fst :
    ∀ f : List (String × Js), (canonPairs f).map Prod.fst = f.map Prod.fst := by
  intro f
  induction f with
  | nil => simp [canonPairs]
  | cons kv f ih => simp [canonPairs, ih]

/-- Strict version of the key order, used to identify the two sorted
lists. -/
def pairKeyLt (a b : String × String) : Prop := pairKeyLe a b ∧ a.1 ≠ b.1

instance : IsAntisymm (String × String) pairKeyLt :=
  ⟨fun a b h₁ h₂ => by
    exact absurd (String.toList_inj.mp (le_antisymm h₁.1 h₂.1)) h₁.2⟩

theorem sorted_pairKeyLt_of_nodup {l : List (String × String)}
    (hs : List.Sorted pairKeyLe l) (hn : (l.map Prod.fst).Nodup) :
    List.Sorted pairKeyLt l := by
  have hne : List.Pairwise (fun a b : String × String => a.1 ≠ b.1) l :=
    (List.pairwise_map).mp hn
  exact (hs.and hne).imp fun h => ⟨h.1, h.2⟩

/-- Sorting by key is permutation-invariant on lists with pairwise
distinct keys. -/
theorem sortPairs_eq_of_perm {l₁ l₂ : List (String × String)}
    (hp : l₁.Perm l₂) (hn : (l₁.map Prod.fst).Nodup) :
    sortPairs l₁ = sortPairs l₂ := by
  have hn₂ : (l₂.map Prod.fst).Nodup := ((hp.map Prod.fst).nodup_iff).mp hn
  have hs₁ : List.Sorted pairKeyLe (sortPairs l₁) :=
    List.sorted_insertionSort pairKeyLe l₁
  have hs₂ : List.Sorted pairKeyLe (sortPairs l₂) :=
    List.sorted_insertionSort pairKeyLe l₂
  have hperm : (sortPairs l₁).Perm (sortPairs l₂) :=
    (List.perm_insertionSort pairKeyLe l₁).trans
      (hp.trans (List.perm_insertionSort pairKeyLe l₂).symm)
  have hn₁' : ((sortPairs l₁).map Prod.fst).Nodup :=
    (((List.perm_insertionSort pairKeyLe l₁).map Prod.fst).nodup_iff).mpr hn
  have hn₂' : ((sortPairs l₂).map Prod.fst).Nodup :=
    (((List.perm_insertionSort pairKeyLe l₂).map Prod.fst).nodup_iff).mpr hn₂
  exact List.eq_of_perm_of_sorted hperm
    (sorted_pairKeyLt_of_nodup hs₁ hn₁')
    (sorted_pairKeyLt_of_nodup hs₂ hn₂')

theorem canonPairs_eq_map :
    ∀ l : List (String × Js),
      canonPairs l = l.map fun kv => (kv.1, canonicalizeJSON kv.2) := by
  intro l
  induction l with
  | nil => simp [canonPairs]
  | cons kv l ih => simp [canonPairs, ih]

theorem fields_equiv_map_fst :
    ∀ {f g : List (String × Js)}, KeyOrderEquivFields f g →
      f.map Prod.fst = g.map Prod.fst := by
  intro f
  induction f with
  | nil => intro g h; cases h; rfl
  | cons kv f ih =>
      intro g h
      cases h with
      | cons hxy hrest => simp [ih hrest]

theorem canonList_congr :
    ∀ {xs ys : List Js}, KeyOrderEquivList xs ys →
      (∀ x ∈ xs, ∀ y : Js, KeyOrderEquiv x y → Js.WF x → Js.WF y →
        canonicalizeJSON x = canonicalizeJSON y) →
      Js.WFList xs → Js.WFList ys → canonList xs = canonList ys := by
  intro xs
  induction xs with
  | nil => intro ys h _ _ _; cases h; rfl
  | cons x xs ih =>
      intro ys h hih hwx hwy
      cases h with
      | cons hxy hrest =>
          simp only [Js.WFList] at hwx hwy
          have h1 := hih x (List.mem_cons_self x xs) _ hxy hwx.1 hwy.1
          have h2 := ih hrest
            (fun x' hm y' hq hw1 hw2 => hih x' (List.mem_cons_of_mem x hm) y' hq hw1 hw2)
            hwx.2 hwy.2
          simp [canonList, h1, h2]

theorem canonPairs_congr :
    ∀ {f g : List (String × Js)}, KeyOrderEquivFields f g →
      (∀ kv ∈ f, ∀ y : Js, KeyOrderEquiv kv.2 y → Js.WF kv.2 → Js.WF y →
        canonicalizeJSON kv.2 = canonicalizeJSON y) →
      Js.WFFields f → Js.WFFields g → canonPairs f = canonPairs g := by
  intro f
  induction f with
  | nil => intro g h _ _ _; cases h; rfl
  | cons kv f ih =>
      intro g h hih hwf hwg
      cases h with
      | @cons k x y f' g' hxy hrest =>
          simp only [Js.WFFields] at hwf hwg
          have h1 := hih (k, x) (List.mem_cons_self (k, x) f) y hxy hwf.1 hwg.1
          have h2 := ih hrest
            (fun kv' hm y' hq hw1 hw2 => hih kv' (List.mem_cons_of_mem (k, x) hm) y' hq hw1 hw2)
            hwf.2 hwg.2
          simp [canonPairs, h1, h2]

/-- Canonicalization is invariant under key-order equivalence (strong
induction on value size). -/
theorem canon_equiv_sized :
    ∀ n : Nat, ∀ x y : Js, Js.size x ≤ n → KeyOrderEquiv x y →
      Js.WF x → Js.WF y → canonicalizeJSON x = canonicalizeJSON y := by
  intro n
  induction n with
  | zero =>
      intro x y hsz _ _ _
      exact absurd hsz (by have := Js.size_pos x; omega)
  | succ n ih =>
      intro x y hsz hequiv hwx hwy
      cases hequiv with
      | null => rfl
      | undef => rfl
      | bool b => rfl
      | num m => rfl
      | str s => rfl
      | @arr xs ys hl =>
          simp only [Js.WF] at hwx hwy
          simp only [Js.size] at hsz
          have hxs : canonList xs = canonList ys := by
            refine canonList_congr hl (fun x' hm y' hq hw1 hw2 => ?_) hwx hwy
            refine ih x' y' ?_ hq hw1 hw2
            have := Js.size_le_sizeList hm
            omega
          simp [canonicalizeJSON, hxs]
      | @obj f g h₂ hfg hperm =>
          simp only [Js.WF] at hwx hwy
          simp only [Js.size] at hsz
          obtain ⟨hnodf, hwff⟩ := hwx
          obtain ⟨hnodh, hwfh⟩ := hwy
          have hwfg : Js.WFFields g := by
            rw [Js.WFFields_iff]
            intro kv hm
            exact (Js.WFFields_iff h₂).mp hwfh kv (hperm.mem_iff.mp hm)
          have hcp : canonPairs f = canonPairs g := by
            refine canonPairs_congr hfg (fun kv hm y' hq hw1 hw2 => ?_) hwff hwfg
            refine ih kv.2 y' ?_ hq hw1 hw2
            have := Js.size_le_sizeFields hm
            omega
          have hpcp : (canonPairs g).Perm (canonPairs h₂) := by
            rw [canonPairs_eq_map, canonPairs_eq_map]
            exact hperm.map fun kv => (kv.1, canonicalizeJSON kv.2)
          have hnodg : ((canonPairs g).map Prod.fst).Nodup := by
            rw [canonPairs_map_fst, ← fields_equiv_map_fst hfg]
            exact hnodf
          have hsort : sortPairs (canonPairs f) = sortPairs (canonPairs h₂) := by
            rw [hcp]
            exact sortPairs_eq_of_perm hpcp hnodg
          simp [canonicalizeJSON, hsort]

/-- The record `{"b":2,"a":1}` (keys in this insertion order). -/
def jsB2A1 : Js := .obj [("b", .num (.int 2)), ("a", .num (.int 1))]

/-- The record `{"a":1,"b":2}`. -/
def jsA1B2 : Js := .obj [("a", .num (.int 1)), ("b", .num (.int 2))]

/-- C1: for every two structured records that are equal up to the
insertion order of mapping keys at every nesting depth,
`canonicalizeJSON` produces the identical canonical string, and hence
`computeHash` produces the identical digest for any digest function. -/
theorem canonicalizeJSON_key_order_invariant (x y : Js)
    (hequiv : KeyOrderEquiv x y) (hx : Js.WF x) (hy : Js.WF y) :
    canonicalizeJSON x = canonicalizeJSON y ∧
      ∀ sha : String → String, computeHash sha x = computeHash sha y := by
  have h := canon_equiv_sized (Js.size x) x y le_rfl hequiv hx hy
  exact ⟨h, fun sha => by simp [computeHash, h]⟩

/-- Witness for C1: `{"b":2,"a":1}` and `{"a":1,"b":2}` canonicalize and
hash identically. -/
theorem canonicalizeJSON_key_order_invariant_witness :
    canonicalizeJSON jsB2A1 = canonicalizeJSON jsA1B2 ∧
      ∀ sha : String → String, computeHash sha jsB2A1 = computeHash sha jsA1B2 :=
  canonicalizeJSON_key_order_invariant jsB2A1 jsA1B2
    (KeyOrderEquiv.obj
      (KeyOrderEquivFields.cons (KeyOrderEquiv.num (JsNum.int 2))
        (KeyOrderEquivFields.cons (KeyOrderEquiv.num (JsNum.int 1))
          KeyOrderEquivFields.nil))
      (List.Perm.swap ("a", Js.num (JsNum.int 1)) ("b", Js.num (JsNum.int 2)) []))
    (by simp only [jsB2A1, Js.WF, Js.WFFields]; decide)
    (by simp only [jsA1B2, Js.WF, Js.WFFields]; decide)

/-! ## `null` / `undefined` collapse and non-finite coercion -/

mutual

/-- Replace every `undefined` by `null`, recursively. -/
def collapseUndef : Js → Js
  | .undef => .null
  | .null => .null
  | .bool b => .bool b
  | .num n => .num n
  | .str s => .str s
  | .arr xs => .arr (collapseUndefList xs)
  | .obj f => .obj (collapseUndefFields f)

/-- Action of `collapseUndef` on array elements. -/
def collapseUndefList : List Js → List Js
  | [] => []
  | x :: xs => collapseUndef x :: collapseUndefList xs

/-- Action of `collapseUndef` on field values. -/
def collapseUndefFields : List (String × Js) → List (String × Js)
  | [] => []
  | kv :: f => (kv.1, collapseUndef kv.2) :: collapseUndefFields f

end

mutual

/-- Replace every non-finite number (`NaN`, `Infinity`, `-Infinity`) by
`null`, recursively. -/
def coerceNonFinite : Js → Js
  | .num (.int n) => .num (.int n)
  | .num _ => .null
  | .undef => .undef
  | .null => .null
  | .bool b => .bool b
  | .str s => .str s
  | .arr xs => .arr (coerceNonFiniteList xs)
  | .obj f => .obj (coerceNonFiniteFields f)

/-- Action of `coerceNonFinite` on array elements. -/
def coerceNonFiniteList : List Js → List Js
  | [] => []
  | x :: xs => coerceNonFinite x :: coerceNonFiniteList xs

/-- Action of `coerceNonFinite` on field values. -/
def coerceNonFiniteFields : List (String × Js) → List (String × Js)
  | [] => []
  | kv :: f => (kv.1, coerceNonFinite kv.2) :: coerceNonFiniteFields f

end

theorem canonList_valmap (g : Js → Js) :
    ∀ l : List Js, (∀ x ∈ l, canonicalizeJSON (g x) = canonicalizeJSON x) →
      canonList (l.map g) = canonList l := by
  intro l
  induction l with
  | nil => intro _; rfl
  | cons x xs ih =>
      intro h
      simp only [List.map, canonList]
      rw [h x (List.mem_cons_self x xs), ih fun x' hm => h x' (List.mem_cons_of_mem x hm)]

theorem canonPairs_valmap (g : Js → Js) :
    ∀ l : List (String × Js),
      (∀ kv ∈ l, canonicalizeJSON (g kv.2) = canonicalizeJSON kv.2) →
      canonPairs (l.map fun kv => (kv.1, g kv.2)) = canonPairs l := by
  intro l
  induction l with
  | nil => intro _; rfl
  | cons kv f ih =>
      intro h
      simp only [List.map, canonPairs]
      rw [h kv (List.mem_cons_self kv f), ih fun kv' hm => h kv' (List.mem_cons_of_mem kv hm)]

theorem collapseUndefList_eq_map :
    ∀ l : List Js, collapseUndefList l = l.map collapseUndef := by
  intro l
  induction l with
  | nil => rfl
  | cons x xs ih => simp [collapseUndefList, ih]

theorem collapseUndefFields_eq_map :
    ∀ l : List (String × Js),
      collapseUndefFields l = l.map fun kv => (kv.1, collapseUndef kv.2) := by
  intro l
  induction l with
  | nil => rfl
  | cons kv f ih => simp [collapseUndefFields, ih]

theorem coerceNonFiniteList_eq_map :
    ∀ l : List Js, coerceNonFiniteList l = l.map coerceNonFinite := by
  intro l
  induction l with
  | nil => rfl
  | cons x xs ih => simp [coerceNonFiniteList, ih]

theorem coerceNonFiniteFields_eq_map :
    ∀ l : List (String × Js),
      coerceNonFiniteFields l = l.map fun kv => (kv.1, coerceNonFinite kv.2) := by
  intro l
  induction l with
  | nil => rfl
  | cons kv f ih => simp [coerceNonFiniteFields, ih]

theorem canon_collapseUndef_sized :
    ∀ n : Nat, ∀ x : Js, Js.size x ≤ n →
      canonicalizeJSON (collapseUndef x) = canonicalizeJSON x := by
  intro n
  induction n with
  | zero =>
      intro x hsz
      exact absurd hsz (by have := Js.size_pos x; omega)
  | succ n ih =>
      intro x hsz
      cases x with
      | null => rfl
      | undef => rfl
      | bool b => rfl
      | num m => rfl
      | str s => rfl
      | arr xs =>
          simp only [Js.size] at hsz
          rw [collapseUndef, collapseUndefList_eq_map]
          simp only [canonicalizeJSON]
          rw [canonList_valmap collapseUndef xs fun x' hm =>
            ih x' (by have := Js.size_le_sizeList hm; omega)]
      | obj f =>
          simp only [Js.size] at hsz
          rw [collapseUndef, collapseUndefFields_eq_map]
          simp only [canonicalizeJSON]
          rw [canonPairs_valmap collapseUndef f fun kv hm =>
            ih kv.2 (by have := Js.size_le_sizeFields hm; omega)]

theorem canon_coerceNonFinite_sized :
    ∀ n : Nat, ∀ x : Js, Js.size x ≤ n →
      canonicalizeJSON (coerceNonFinite x) = canonicalizeJSON x := by
  intro n
  induction n with
  | zero =>
      intro x hsz
      exact absurd hsz (by have := Js.size_pos x; omega)
  | succ n ih =>
      intro x hsz
      cases x with
      | null => rfl
      | undef => rfl
      | bool b => rfl
      | num m => cases m <;> rfl
      | str s => rfl
      | arr xs =>
          simp only [Js.size] at hsz
          rw [coerceNonFinite, coerceNonFiniteList_eq_map]
          simp only [canonicalizeJSON]
          rw [canonList_valmap coerceNonFinite xs fun x' hm =>
            ih x' (by have := Js.size_le_sizeList hm; omega)]
      | obj f =>
          simp only [Js.size] at hsz
          rw [coerceNonFinite, coerceNonFiniteFields_eq_map]
          simp only [canonicalizeJSON]
          rw [canonPairs_valmap coerceNonFinite f fun kv hm =>
            ih kv.2 (by have := Js.size_le_sizeFields hm; omega)]

/-- C10: `null` and `undefined` are indistinguishable to the hasher:
two records identified by replacing `undefined` values with `null`
canonicalize and hash identically. -/
theorem null_undefined_indistinguishable (x y : Js)
    (h : collapseUndef x = collapseUndef y) :
    canonicalizeJSON x = canonicalizeJSON y ∧
      ∀ sha : String → String, computeHash sha x = computeHash sha y := by
  have hx := canon_collapseUndef_sized (Js.size x) x le_rfl
  have hy := canon_collapseUndef_sized (Js.size y) y le_rfl
  have hc : canonicalizeJSON x = canonicalizeJSON y := by
    rw [← hx, ← hy, h]
  exact ⟨hc, fun sha => by simp [computeHash, hc]⟩

/-- Witness for C10: a record with a `null` field and the same record
with that field `undefined` canonicalize identically (and `undefined`
itself hashes like `null`). -/
theorem null_undefined_indistinguishable_witness :
    canonicalizeJSON (Js.obj [("a", Js.null)]) =
      canonicalizeJSON (Js.obj [("a", Js.undef)]) ∧
    canonicalizeJSON Js.undef = canonicalizeJSON Js.null := by
  refine ⟨?_, ?_⟩
  · exact (null_undefined_indistinguishable (Js.obj [("a", Js.null)])
      (Js.obj [("a", Js.undef)])
      (by simp [collapseUndef, collapseUndefFields])).1
  · exact (null_undefined_indistinguishable Js.undef Js.null
      (by simp [collapseUndef])).1

/-- C8 (amended): `computeHash` does not fail on non-finite numeric
values; `canonicalizeJSON` silently serializes each of `NaN`,
`Infinity`, `-Infinity` as the literal `null` (the behaviour of
`JSON.stringify` on non-finite numbers), so the digest of any record
equals the digest of the record with its non-finite values replaced by
`null`. -/
theorem computeHash_coerces_nonfinite (x : Js) (sha : String → String) :
    canonicalizeJSON x = canonicalizeJSON (coerceNonFinite x) ∧
      computeHash sha x = computeHash sha (coerceNonFinite x) := by
  have h := canon_coerceNonFinite_sized (Js.size x) x le_rfl
  exact ⟨h.symm, by simp [computeHash, h]⟩

/-- C8 counterexample: hashing the record `{"a": NaN}` does not fail and
does not reject the value — it returns the canonical string (and hence a
digest) of `{"a": null}`. -/
theorem computeHash_nonfinite_no_error :
    canonicalizeJSON (Js.obj [("a", Js.num JsNum.nan)]) = "\x7b\"a\":null\x7d" ∧
    canonicalizeJSON (Js.obj [("a", Js.num JsNum.nan)]) =
      canonicalizeJSON (Js.obj [("a", Js.null)]) ∧
    computeHash (fun s => s) (Js.obj [("a", Js.num JsNum.nan)]) = "0x\x7b\"a\":null\x7d" := by
  refine ⟨?_, ?_, ?_⟩
  · simp only [canonicalizeJSON, canonPairs, sortPairs, renderPair, numToJson,
      List.insertionSort, List.orderedInsert]
    decide
  · simp only [canonicalizeJSON, canonPairs, numToJson]
  · simp only [computeHash, canonicalizeJSON, canonPairs, sortPairs, renderPair,
      numToJson, List.insertionSort, List.orderedInsert]
    decide

/-! ## The user-controller / migration hash
(`record.controller.js` lines 274-283, `migrate-users-to-blockchain.js`
lines 78-82)

These use `JSON.stringify(data, Object.keys(data).sort())`.  Passing an
array as the second argument of `JSON.stringify` makes it a *property
list*: at EVERY nesting level only the listed keys are serialized, in
the order of the list.  `SerializeJSONObject` iterates the property
list, looks each key up in the object (a missing or `undefined`-valued
property is skipped), and serializes the value; since a value's
serialization does not depend on its position, serializing all fields
first (`stringifyKFields`) and then filtering / ordering by the
property list (`renderKProps`) computes the same string. -/

/-- Render the properties of one object according to the property list
`ks`: iterate `ks` in order, look the key up among the serialized
fields, skip missing or unserializable (undefined) properties, and emit
`"key":value` (keys are escaped by `JSON.stringify`). -/
def renderKProps (ks : List String) (props : List (String × Option String)) :
    List String :=
  ks.filterMap fun k =>
    match props.find? (fun p => p.1 == k) with
    | some (_, some s) => some (quoteJs k ++ ":" ++ s)
    | _ => none

mutual

/-- Semantics of `JSON.stringify(v, ks)` for an array property list `ks`:
`undefined` is not serializable (`none`); scalars as in plain
`JSON.stringify`; arrays serialize all elements (unserializable elements
become `null`); objects serialize only the properties named in `ks`, in
the order of `ks`. -/
def stringifyK (ks : List String) : Js → Option String
  | .undef => none
  | .null => some "null"
  | .bool b => some (if b then "true" else "false")
  | .num n => some (numToJson n)
  | .str s => some (quoteJs s)
  | .arr xs => some ("[" ++ String.intercalate "," (stringifyKElems ks xs) ++ "]")
  | .obj f => some ("\x7b" ++ String.intercalate ","
      (renderKProps ks (stringifyKFields ks f)) ++ "\x7d")

/-- Array elements under a property list. -/
def stringifyKElems (ks : List String) : List Js → List String
  | [] => []
  | x :: xs => (stringifyK ks x).getD "null" :: stringifyKElems ks xs

/-- Serialization of each field's value, keeping the key. -/
def stringifyKFields (ks : List String) : List (String × Js) → List (String × Option String)
  | [] => []
  | kv :: f => (kv.1, stringifyK ks kv.2) :: stringifyKFields ks f

end

/-- Model of `Object.keys(x).sort()`: sort a key list (comparison coincides with
the `String` order, see `pairKeyLe_iff_string_le`). -/
def sortKeys (l : List String) : List String :=
  List.insertionSort (fun a b : String => a.toList ≤ b.toList) l

instance : DecidableRel (fun a b : String => a.toList ≤ b.toList) := fun a b =>
  inferInstanceAs (Decidable (a.toList ≤ b.toList))

/-- The denylist filter of the user controller / migration script:
`delete dataForHash.password; delete dataForHash.last_login_ip`. -/
def dropSensitiveFields (data : List (String × Js)) : List (String × Js) :=
  data.filter fun kv => !(kv.1 == "password") && !(kv.1 == "last_login_ip")

/-- Canonical string of the user-controller `computeHash`
(`record.controller.js` lines 274-283): copy the record, delete
`password` and `last_login_ip`, then
`JSON.stringify(dataForHash, Object.keys(dataForHash).sort())`. -/
def userComputeHashCanonical (data : List (String × Js)) : Option String :=
  let dataForHash := dropSensitiveFields data
  stringifyK (sortKeys (dataForHash.map Prod.fst)) (.obj dataForHash)

/-- The user-controller `computeHash`: `'0x' + sha256(canonicalJson)`.
The digest primitive is a parameter, as in `computeHash` above. -/
def userComputeHash (sha : String → String) (data : List (String × Js)) :
    Option String :=
  (userComputeHashCanonical data).map fun c => "0x" ++ sha c

/-- User snapshot `{user_id: 1, password: "secret", details: {age: 30}}`. -/
def userSnapshotAge30 : List (String × Js) :=
  [("user_id", .num (.int 1)), ("password", .str "secret"),
   ("details", .obj [("age", .num (.int 30))])]

/-- Same snapshot with the nested `details.age` changed to 31. -/
def userSnapshotAge31 : List (String × Js) :=
  [("user_id", .num (.int 1)), ("password", .str "secret"),
   ("details", .obj [("age", .num (.int 31))])]

/-- C2: the user-controller hash is NOT injective on records differing
in a nested non-excluded field: the array property list of
`JSON.stringify(data, Object.keys(data).sort())` filters keys at every
nesting depth, so nested field content is dropped entirely
(`details` always serializes as `{}`), and two snapshots differing only
in `details.age` produce the identical canonical string and digest. -/
theorem userComputeHash_nested_field_collision :
    userSnapshotAge30 ≠ userSnapshotAge31 ∧
    userComputeHashCanonical userSnapshotAge30 =
      some "\x7b\"details\":\x7b\x7d,\"user_id\":1\x7d" ∧
    userComputeHashCanonical userSnapshotAge31 =
      some "\x7b\"details\":\x7b\x7d,\"user_id\":1\x7d" ∧
    ∀ sha : String → String,
      userComputeHash sha userSnapshotAge30 = userComputeHash sha userSnapshotAge31 := by
  have h30 : userComputeHashCanonical userSnapshotAge30 =
      some "\x7b\"details\":\x7b\x7d,\"user_id\":1\x7d" := by
    simp only [userComputeHashCanonical, userSnapshotAge30, dropSensitiveFields,
      sortKeys, stringifyK, stringifyKElems, stringifyKFields, renderKProps,
      numToJson, quoteJs, escChar, List.insertionSort, List.orderedInsert,
      List.filter, List.map, List.filterMap]
    decide
  have h31 : userComputeHashCanonical userSnapshotAge31 =
      some "\x7b\"details\":\x7b\x7d,\"user_id\":1\x7d" := by
    simp only [userComputeHashCanonical, userSnapshotAge31, dropSensitiveFields,
      sortKeys, stringifyK, stringifyKElems, stringifyKFields, renderKProps,
      numToJson, quoteJs, escChar, List.insertionSort, List.orderedInsert,
      List.filter, List.map, List.filterMap]
    decide
  refine ⟨?_, h30, h31, ?_⟩
  · simp [userSnapshotAge30, userSnapshotAge31]
  · intro sha
    simp [userComputeHash, h30, h31]

/-! ## C3: idempotence of the audit-record flows

`processUser` (`migrate-users-to-blockchain.js` lines 269-313) computes
the digest of the combined snapshot minus the denylisted fields, checks
`userRecordExists(userId, hash)` and skips when a row with that
`(user_id, hash_value)` pair already exists; otherwise it stores on the
ledger and inserts the row.  `createUser`
(`record.controller.js` lines 336-389) performs the ledger store and the
chain-record insert unconditionally.  The off-chain store is modelled by
its `(user_id, hash_value)` rows plus a counter of ledger `Store`
dispatches; the ledger store itself is taken to succeed, which is the
scenario of the claim. -/

/-- Off-chain rows `(user_id, hash_value)` of `user_chain_records`, plus
the number of ledger `Store` calls dispatched so far. -/
structure MigState where
  records : List (String × String)
  storeCalls : Nat
deriving DecidableEq, Repr

/-- Result of processing one user in the migration. -/
inductive ProcResult where
  | success
  | skipped
  | failed
deriving DecidableEq, Repr

/-- Function `userRecordExists` (migration lines 241-248): a row with this
`(user_id, hash_value)` pair exists. -/
def userRecordExists (st : MigState) (userId hash : String) : Bool :=
  st.records.any fun r => r.1 == userId && r.2 == hash

/-- The migration's `computeHash` (lines 78-82):
`JSON.stringify(data, Object.keys(data).sort())`, digested and
`0x`-prefixed.  (Identical in shape to the user-controller hash, but the
denylist removal happens in the caller `processUser`.) -/
def migComputeHash (sha : String → String) (data : List (String × Js)) :
    Option String :=
  (stringifyK (sortKeys (data.map Prod.fst)) (.obj data)).map fun c => "0x" ++ sha c

/-- Function `processUser`: combine the snapshot, drop `password` /
`last_login_ip`, hash, skip if `(user_id, hash)` already recorded,
otherwise store on the ledger and insert the row. -/
def processUser (sha : String → String) (st : MigState) (userId : String)
    (dataJson : List (String × Js)) : MigState × ProcResult :=
  let dataForHash := dropSensitiveFields dataJson
  match migComputeHash sha dataForHash with
  | none => (st, .failed)
  | some hash =>
      if userRecordExists st userId hash then (st, .skipped)
      else ({ records := st.records ++ [(userId, hash)],
              storeCalls := st.storeCalls + 1 }, .success)

/-- Insert into `user_chain_records` (`userService.createChainRecord`).
The table carries `CONSTRAINT unique_user_operation UNIQUE (user_id,
hash_value)` (declared in both DDL files of the repository), so an
insert of an already-present `(user_id, hash_value)` pair violates the
constraint and throws, adding no row; the second component records
whether the insert succeeded. -/
def insertChainRecord (st : MigState) (userId hash : String) : MigState × Bool :=
  if userRecordExists st userId hash then (st, false)
  else ({ st with records := st.records ++ [(userId, hash)] }, true)

/-- Steps 2-4 of `createUser` (`record.controller.js` lines 349-373),
given the snapshot of the created user: compute the hash, call
`blockchainService.storeRecordHash` (unconditionally — there is no
existence check before the ledger call), then attempt the chain-record
insert, which is subject to the table's unique constraint.  The second
component is whether the insert succeeded (a constraint violation is
caught by the handler's outer catch and answered as an error). -/
def createUserChainStep (sha : String → String) (st : MigState) (userId : String)
    (userData : List (String × Js)) : MigState × Bool :=
  match userComputeHash sha userData with
  | none => (st, false)
  | some hash =>
      insertChainRecord { st with storeCalls := st.storeCalls + 1 } userId hash

/-- C3 (amended): the migration's `processUser` is idempotent — run
twice on an unchanged snapshot, the second run is a skipped no-op,
exactly one ledger Store call is made in total, and exactly one
`(user_id, hash)` row exists afterwards. -/
theorem processUser_idempotent (sha : String → String) (st : MigState)
    (userId : String) (dataJson : List (String × Js)) (hash : String)
    (hhash : migComputeHash sha (dropSensitiveFields dataJson) = some hash)
    (hnew : userRecordExists st userId hash = false) :
    (processUser sha (processUser sha st userId dataJson).1 userId dataJson).1 =
      (processUser sha st userId dataJson).1 ∧
    (processUser sha (processUser sha st userId dataJson).1 userId dataJson).2 =
      ProcResult.skipped ∧
    (processUser sha st userId dataJson).1.storeCalls = st.storeCalls + 1 ∧
    ((processUser sha st userId dataJson).1.records.filter
        fun r => r.1 == userId && r.2 == hash).length = 1 := by
  have hstep1 : processUser sha st userId dataJson =
      ({ records := st.records ++ [(userId, hash)],
         storeCalls := st.storeCalls + 1 }, ProcResult.success) := by
    simp [processUser, hhash, hnew]
  have hexists : userRecordExists
      { records := st.records ++ [(userId, hash)],
        storeCalls := st.storeCalls + 1 } userId hash = true := by
    simp [userRecordExists]
  have hstep2 : processUser sha (processUser sha st userId dataJson).1 userId dataJson =
      ((processUser sha st userId dataJson).1, ProcResult.skipped) := by
    rw [hstep1]
    simp [processUser, hhash, hexists]
  have hcount : (st.records.filter fun r => r.1 == userId && r.2 == hash) = [] := by
    have h' : st.records.any (fun r => r.1 == userId && r.2 == hash) = false := hnew
    rw [List.filter_eq_nil_iff]
    intro r hr
    exact List.any_eq_false.mp h' r hr
  refine ⟨by rw [hstep2], by rw [hstep2], by rw [hstep1], ?_⟩
  rw [hstep1]
  simp [List.filter_append, hcount]

/-- Witness for C3's amended theorem: concrete run of `processUser`
twice on an unchanged one-field snapshot, with the identity standing in
for the digest. -/
theorem processUser_idempotent_witness :
    (processUser (fun s => s)
        (processUser (fun s => s) ⟨[], 0⟩ "1" [("user_id", Js.num (JsNum.int 1))]).1
        "1" [("user_id", Js.num (JsNum.int 1))]).1 =
      (processUser (fun s => s) ⟨[], 0⟩ "1" [("user_id", Js.num (JsNum.int 1))]).1 ∧
    (processUser (fun s => s)
        (processUser (fun s => s) ⟨[], 0⟩ "1" [("user_id", Js.num (JsNum.int 1))]).1
        "1" [("user_id", Js.num (JsNum.int 1))]).2 = ProcResult.skipped ∧
    (processUser (fun s => s) ⟨[], 0⟩ "1" [("user_id", Js.num (JsNum.int 1))]).1.storeCalls =
      (0 : Nat) + 1 ∧
    ((processUser (fun s => s) ⟨[], 0⟩ "1" [("user_id", Js.num (JsNum.int 1))]).1.records.filter
        fun r => r.1 == "1" && r.2 == "0x\x7b\"user_id\":1\x7d").length = 1 := by
  refine processUser_idempotent (fun s => s) ⟨[], 0⟩ "1"
    [("user_id", Js.num (JsNum.int 1))] "0x\x7b\"user_id\":1\x7d" ?_ ?_
  · simp only [migComputeHash, dropSensitiveFields, sortKeys, stringifyK,
      stringifyKElems, stringifyKFields, renderKProps, numToJson, quoteJs,
      escChar, List.insertionSort, List.orderedInsert, List.filter, List.map,
      List.filterMap, Option.map]
    decide
  · decide

/-- A user snapshot as returned by `userService.createUser`. -/
def demoCreatedUser : List (String × Js) :=
  [("user_id", .num (.int 7)), ("email", .str "a@b.c")]

/-- C3 counterexample: `createUser` has no idempotent short-circuit
before the ledger call — invoked twice with an unchanged snapshot for
the same entity, it makes TWO ledger Store calls, not the one the claim
asserts.  (Exactly one audit row for the `(entityId, digest)` pair does
remain: the second `user_chain_records` insert fails on the
`UNIQUE (user_id, hash_value)` constraint, after the second ledger
write has already been dispatched.) -/
theorem createUser_not_idempotent :
    ((createUserChainStep (fun s => s)
        (createUserChainStep (fun s => s) ⟨[], 0⟩ "7" demoCreatedUser).1
        "7" demoCreatedUser).1.storeCalls = 2) ∧
    ((createUserChainStep (fun s => s)
        (createUserChainStep (fun s => s) ⟨[], 0⟩ "7" demoCreatedUser).1
        "7" demoCreatedUser).1.storeCalls ≠ 1) ∧
    (((createUserChainStep (fun s => s)
        (createUserChainStep (fun s => s) ⟨[], 0⟩ "7" demoCreatedUser).1
        "7" demoCreatedUser).1.records.filter fun r => r.1 == "7").length = 1) ∧
    ((createUserChainStep (fun s => s)
        (createUserChainStep (fun s => s) ⟨[], 0⟩ "7" demoCreatedUser).1
        "7" demoCreatedUser).2 = false) := by
  have hhash : userComputeHash (fun s => s) demoCreatedUser =
      some "0x\x7b\"email\":\"a@b.c\",\"user_id\":7\x7d" := by
    simp only [userComputeHash, userComputeHashCanonical, demoCreatedUser,
      dropSensitiveFields, sortKeys, stringifyK, stringifyKElems,
      stringifyKFields, renderKProps, numToJson, quoteJs, escChar,
      List.insertionSort, List.orderedInsert, List.filter, List.map,
      List.filterMap, Option.map]
    decide
  refine ⟨?_, ?_, ?_, ?_⟩ <;>
    simp [createUserChainStep, insertChainRecord, userRecordExists, hhash]

/-! ## C4: retry bound of `storeOnPolygon`
(`migrate-users-to-blockchain.js` lines 130-191) -/

/-- Constant `MAX_RETRIES` from `storeOnPolygon`. -/
def MAX_RETRIES : Nat := 3

/-- Constant `RETRY_DELAY` (milliseconds) from `storeOnPolygon`. -/
def RETRY_DELAY : Nat := 5000

/-- Does the character list `n` occur at the start of `h`? -/
def charsAtStart : List Char → List Char → Bool
  | [], _ => true
  | _ :: _, [] => false
  | a :: as, b :: bs => a == b && charsAtStart as bs

/-- Does the character list `n` occur anywhere inside `h`? -/
def charsInside (n : List Char) : List Char → Bool
  | [] => n.isEmpty
  | c :: t => charsAtStart n (c :: t) || charsInside n t

/-- JavaScript `hay.includes(needle)`. -/
def containsSub (needle hay : String) : Bool :=
  charsInside needle.toList hay.toList

/-- The transient-error classifier of `storeOnPolygon`:
`errorMsg.includes('Temporary') || includes('timeout') ||
includes('rate limit') || includes('internal error')`. -/
def isRetryableMsg (m : String) : Bool :=
  containsSub "Temporary" m || containsSub "timeout" m ||
    containsSub "rate limit" m || containsSub "internal error" m

/-- The network-error classifier of the catch block:
`error.message.includes('fetch failed') || includes('ECONNRESET') ||
includes('ETIMEDOUT')`. -/
def isNetworkErrMsg (m : String) : Bool :=
  containsSub "fetch failed" m || containsSub "ECONNRESET" m ||
    containsSub "ETIMEDOUT" m

/-- Outcome of one `fetch` to `POST /api/submit-change`. -/
inductive PolyResp where
  /-- Case `response.ok && result.success`, carrying `result.txHash`. -/
  | ok (txHash : String)
  /-- Case `!response.ok || !result.success`, carrying `result.error`. -/
  | httpErr (msg : String)
  /-- the `fetch` itself rejected, carrying `error.message`. -/
  | netErr (msg : String)
deriving Repr

/-- Trace of one `storeOnPolygon` invocation: the final outcome
(`Except` error message / transaction hash), the number of dispatch
(`fetch`) calls made, and the sleeps taken between consecutive
attempts. -/
structure PolyRun where
  outcome : Except String String
  dispatches : Nat
  delays : List Nat
deriving Repr

/-- Function `storeOnPolygon(userId, hash, retryCount)`, with the backend modelled
as a map from attempt index (the `retryCount` of that attempt) to the
fetch outcome.  An HTTP-level failure whose message is classified
transient is retried while `retryCount < MAX_RETRIES` from inside the
try block — so when that retry's recursion ultimately rejects, the
SAME frame's catch re-examines the propagated error and retries once
more if its message matches the network-error classifier.  A
non-retryable HTTP failure is thrown and likewise lands in the catch;
a rejected fetch goes straight to the catch; a retry issued from the
catch block has no enclosing try, so its failure propagates out.
Exhausted or unclassified failures surface as a terminal error. -/
def storeOnPolygonRun (backend : Nat → PolyResp) (retryCount : Nat) : PolyRun :=
  match backend retryCount with
  | .ok tx => ⟨.ok tx, 1, []⟩
  | .httpErr msg =>
      if h : isRetryableMsg msg = true ∧ retryCount < MAX_RETRIES then
        let rest := storeOnPolygonRun backend (retryCount + 1)
        match rest.outcome with
        | .ok tx => ⟨.ok tx, rest.dispatches + 1, RETRY_DELAY :: rest.delays⟩
        | .error e =>
            if h2 : isNetworkErrMsg e = true ∧ retryCount < MAX_RETRIES then
              let rest2 := storeOnPolygonRun backend (retryCount + 1)
              ⟨rest2.outcome, rest.dispatches + rest2.dispatches + 1,
               RETRY_DELAY :: rest.delays ++ RETRY_DELAY :: rest2.delays⟩
            else ⟨.error e, rest.dispatches + 1, RETRY_DELAY :: rest.delays⟩
      else if h3 : isNetworkErrMsg msg = true ∧ retryCount < MAX_RETRIES then
        let rest := storeOnPolygonRun backend (retryCount + 1)
        ⟨rest.outcome, rest.dispatches + 1, RETRY_DELAY :: rest.delays⟩
      else ⟨.error msg, 1, []⟩
  | .netErr msg =>
      if h : isNetworkErrMsg msg = true ∧ retryCount < MAX_RETRIES then
        let rest := storeOnPolygonRun backend (retryCount + 1)
        ⟨rest.outcome, rest.dispatches + 1, RETRY_DELAY :: rest.delays⟩
      else ⟨.error msg, 1, []⟩
termination_by MAX_RETRIES - retryCount
decreasing_by
  all_goals simp only [MAX_RETRIES] at *
  all_goals omega

/-- A retryable HTTP failure with retry budget left, whose try-block
retry fails with an error that the network classifier does NOT match:
one dispatch, a 5-second sleep, the recursive attempt, then the catch
rethrows the propagated error. -/
theorem storeOnPolygonRun_retry_step (backend : Nat → PolyResp) (rc : Nat)
    (msg e : String) (hb : backend rc = PolyResp.httpErr msg)
    (hr : isRetryableMsg msg = true) (hlt : rc < MAX_RETRIES)
    (he : (storeOnPolygonRun backend (rc + 1)).outcome = Except.error e)
    (hn : isNetworkErrMsg e = false) :
    storeOnPolygonRun backend rc =
      ⟨Except.error e,
       (storeOnPolygonRun backend (rc + 1)).dispatches + 1,
       RETRY_DELAY :: (storeOnPolygonRun backend (rc + 1)).delays⟩ := by
  rw [storeOnPolygonRun, hb]
  simp [hr, hlt, he, hn]

/-- A retryable HTTP failure with retry budget left, whose try-block
retry fails with an error that the network classifier DOES match: the
same frame's catch retries once more, doubling the nested dispatches
and sleeps. -/
theorem storeOnPolygonRun_dual_step (backend : Nat → PolyResp) (rc : Nat)
    (msg e : String) (hb : backend rc = PolyResp.httpErr msg)
    (hr : isRetryableMsg msg = true) (hlt : rc < MAX_RETRIES)
    (he : (storeOnPolygonRun backend (rc + 1)).outcome = Except.error e)
    (hn : isNetworkErrMsg e = true) :
    storeOnPolygonRun backend rc =
      ⟨(storeOnPolygonRun backend (rc + 1)).outcome,
       (storeOnPolygonRun backend (rc + 1)).dispatches +
         (storeOnPolygonRun backend (rc + 1)).dispatches + 1,
       RETRY_DELAY :: (storeOnPolygonRun backend (rc + 1)).delays ++
         RETRY_DELAY :: (storeOnPolygonRun backend (rc + 1)).delays⟩ := by
  rw [storeOnPolygonRun, hb]
  simp [hr, hlt, he, hn]

/-- An HTTP failure once the retry budget is exhausted is terminal:
exactly one dispatch, no sleep, the error propagates. -/
theorem storeOnPolygonRun_terminal (backend : Nat → PolyResp) (rc : Nat)
    (msg : String) (hb : backend rc = PolyResp.httpErr msg)
    (hge : ¬ rc < MAX_RETRIES) :
    storeOnPolygonRun backend rc = ⟨Except.error msg, 1, []⟩ := by
  rw [storeOnPolygonRun, hb]
  simp [hge]

/-- C4 (amended): against a backend whose submission endpoint always
fails with an HTTP-level transient error whose message matches the
retryable classifier but not the network-error classifier,
`storeOnPolygon` terminates with a failure after exactly 4 dispatch
calls — the initial attempt plus `MAX_RETRIES = 3` retries (the guard
is `retryCount < MAX_RETRIES` starting from 0) — sleeping the fixed
`RETRY_DELAY` of 5 seconds between consecutive attempts.  (A message
matching both classifiers is retried again from each frame's catch
block and drives the count to 15: see
`storeOnPolygon_not_three_dispatches`.) -/
theorem storeOnPolygon_retry_bound (backend : Nat → PolyResp)
    (h : ∀ n : Nat, ∃ msg, backend n = PolyResp.httpErr msg ∧
      isRetryableMsg msg = true ∧ isNetworkErrMsg msg = false) :
    (storeOnPolygonRun backend 0).dispatches = 4 ∧
    (storeOnPolygonRun backend 0).delays = [RETRY_DELAY, RETRY_DELAY, RETRY_DELAY] ∧
    ∃ msg, (storeOnPolygonRun backend 0).outcome = Except.error msg := by
  obtain ⟨m0, hb0, hr0, hn0⟩ := h 0
  obtain ⟨m1, hb1, hr1, hn1⟩ := h 1
  obtain ⟨m2, hb2, hr2, hn2⟩ := h 2
  obtain ⟨m3, hb3, hr3, hn3⟩ := h 3
  have h3 : storeOnPolygonRun backend 3 = ⟨Except.error m3, 1, []⟩ :=
    storeOnPolygonRun_terminal backend 3 m3 hb3 (by simp [MAX_RETRIES])
  have h2 := storeOnPolygonRun_retry_step backend 2 m2 m3 hb2 hr2
    (by simp [MAX_RETRIES]) (by rw [h3]) hn3
  rw [h3] at h2
  have h1 := storeOnPolygonRun_retry_step backend 1 m1 m3 hb1 hr1
    (by simp [MAX_RETRIES]) (by rw [h2]) hn3
  rw [h2] at h1
  have h0 := storeOnPolygonRun_retry_step backend 0 m0 m3 hb0 hr0
    (by simp [MAX_RETRIES]) (by rw [h1]) hn3
  rw [h1] at h0
  rw [h0]
  exact ⟨rfl, rfl, m3, rfl⟩

/-- A backend that always fails with a transient RPC error (matching
only the retryable classifier). -/
def alwaysTransient : Nat → PolyResp := fun _ => PolyResp.httpErr "Temporary RPC error"

/-- A backend that always fails with a transient error whose message
matches BOTH the retryable and the network-error classifier. -/
def alwaysDualTransient : Nat → PolyResp := fun _ => PolyResp.httpErr "Temporary ETIMEDOUT"

/-- Witness for C4's amended theorem at the always-transient backend. -/
theorem storeOnPolygon_retry_bound_witness :
    (storeOnPolygonRun alwaysTransient 0).dispatches = 4 ∧
    (storeOnPolygonRun alwaysTransient 0).delays = [RETRY_DELAY, RETRY_DELAY, RETRY_DELAY] ∧
    ∃ msg, (storeOnPolygonRun alwaysTransient 0).outcome = Except.error msg :=
  storeOnPolygon_retry_bound alwaysTransient
    (fun _ => ⟨"Temporary RPC error", rfl, by decide, by decide⟩)

/-- C4 counterexample: the dispatch count against an always-transient
backend is never the claimed 3: it is 4 (one initial attempt plus three
retries) when the message matches only the retryable classifier, and 15
when the message also matches the network-error classifier (each
frame's catch re-catches the try-block retry's failure and retries
again). -/
theorem storeOnPolygon_not_three_dispatches :
    (storeOnPolygonRun alwaysTransient 0).dispatches = 4 ∧
    (storeOnPolygonRun alwaysTransient 0).dispatches ≠ 3 ∧
    (storeOnPolygonRun alwaysDualTransient 0).dispatches = 15 ∧
    (storeOnPolygonRun alwaysDualTransient 0).dispatches ≠ 3 := by
  have hr : isRetryableMsg "Temporary RPC error" = true := by decide
  have hn : isNetworkErrMsg "Temporary RPC error" = false := by decide
  have h3 : storeOnPolygonRun alwaysTransient 3 =
      ⟨Except.error "Temporary RPC error", 1, []⟩ :=
    storeOnPolygonRun_terminal alwaysTransient 3 "Temporary RPC error" rfl
      (by simp [MAX_RETRIES])
  have h2 := storeOnPolygonRun_retry_step alwaysTransient 2
    "Temporary RPC error" "Temporary RPC error" rfl hr (by simp [MAX_RETRIES])
    (by rw [h3]) hn
  rw [h3] at h2
  have h1 := storeOnPolygonRun_retry_step alwaysTransient 1
    "Temporary RPC error" "Temporary RPC error" rfl hr (by simp [MAX_RETRIES])
    (by rw [h2]) hn
  rw [h2] at h1
  have h0 := storeOnPolygonRun_retry_step alwaysTransient 0
    "Temporary RPC error" "Temporary RPC error" rfl hr (by simp [MAX_RETRIES])
    (by rw [h1]) hn
  rw [h1] at h0
  have hdr : isRetryableMsg "Temporary ETIMEDOUT" = true := by decide
  have hdn : isNetworkErrMsg "Temporary ETIMEDOUT" = true := by decide
  have g3 : storeOnPolygonRun alwaysDualTransient 3 =
      ⟨Except.error "Temporary ETIMEDOUT", 1, []⟩ :=
    storeOnPolygonRun_terminal alwaysDualTransient 3 "Temporary ETIMEDOUT" rfl
      (by simp [MAX_RETRIES])
  have g2 := storeOnPolygonRun_dual_step alwaysDualTransient 2
    "Temporary ETIMEDOUT" "Temporary ETIMEDOUT" rfl hdr (by simp [MAX_RETRIES])
    (by rw [g3]) hdn
  rw [g3] at g2
  have g1 := storeOnPolygonRun_dual_step alwaysDualTransient 1
    "Temporary ETIMEDOUT" "Temporary ETIMEDOUT" rfl hdr (by simp [MAX_RETRIES])
    (by rw [g2]) hdn
  rw [g2] at g1
  have g0 := storeOnPolygonRun_dual_step alwaysDualTransient 0
    "Temporary ETIMEDOUT" "Temporary ETIMEDOUT" rfl hdr (by simp [MAX_RETRIES])
    (by rw [g1]) hdn
  rw [g1] at g0
  rw [h0, g0]
  refine ⟨rfl, by decide, ?_, ?_⟩ <;> simp

/-! ## C5: the nonce manager and the submit-change route
(`sc_blockchain/config/blockchain.js`, `sc_blockchain/routes/contractRoutes.js`)

The module-level state is `currentNonce` / `nonceInitialized`; the
model additionally counts how many times the network
(`provider.getTransactionCount(wallet.address, "pending")`) was
queried. -/

/-- The module-level nonce-manager state, plus a count of network
queries. -/
structure NonceState where
  currentNonce : Option Int
  nonceInitialized : Bool
  queryCount : Nat
deriving DecidableEq, Repr

/-- State after `let currentNonce = null; let nonceInitialized = false;`. -/
def initialNonceState : NonceState := ⟨none, false, 0⟩

/-- Function `initNonce()`: query the network's pending transaction count only if
not yet initialized; return the current nonce. -/
def initNonce (networkPendingCount : Int) (st : NonceState) :
    Option Int × NonceState :=
  if st.nonceInitialized then (st.currentNonce, st)
  else
    (some networkPendingCount,
     ⟨some networkPendingCount, true, st.queryCount + 1⟩)

/-- Function `getAndIncrementNonce()`: return the cached `currentNonce` and bump
it locally; no network access. -/
def getAndIncrementNonce (st : NonceState) : Option Int × NonceState :=
  (st.currentNonce, ⟨st.currentNonce.map (· + 1), st.nonceInitialized, st.queryCount⟩)

/-- Function `resetNonce()`. -/
def resetNonce (_st : NonceState) : NonceState := initialNonceState

/-- A call to `contract.submitChange(userId, hash)` as issued by the
route: positional arguments only, and in particular no transaction
overrides — no nonce is attached by the repository's code. -/
structure SubmitCall where
  userId : String
  hash : String
  nonceOverride : Option Int
deriving DecidableEq, Repr

/-- The `POST /api/submit-change` handler (`contractRoutes.js` lines
31-43): validate that both parameters are present (JavaScript
falsiness: the empty string is missing), then call
`contract.submitChange(userId, hash)`.  The handler never calls
`initNonce` / `getAndIncrementNonce` (they are exported but unused), and
passes no nonce override. -/
def submitChangeRoute (userId hash : String) : Option SubmitCall :=
  if userId = "" ∨ hash = "" then none
  else some ⟨userId, hash, none⟩

/-- C5 counterexample: after one `initNonce` (network reports 7) and two
`getAndIncrementNonce` calls — two submission attempts — the nonces
served are 7 and 8 while the network was queried exactly once: the
nonce IS cached and advanced locally across attempts, not re-queried
before each attempt. -/
theorem nonce_cached_across_attempts :
    ((getAndIncrementNonce
        (getAndIncrementNonce (initNonce 7 initialNonceState).2).2).2.queryCount = 1) ∧
    (getAndIncrementNonce (initNonce 7 initialNonceState).2).1 = some 7 ∧
    (getAndIncrementNonce
        (getAndIncrementNonce (initNonce 7 initialNonceState).2).2).1 = some 8 := by
  decide

/-- C5 (amended): the repository performs no per-attempt nonce query.
The submit-change route attaches no nonce at all (delegating nonce
assignment to the external ethers signer), and the repository's own
nonce manager queries the network only on first initialization:
`getAndIncrementNonce` serves the cached value without any network
query, and a second `initNonce` is a no-op. -/
theorem nonce_no_per_attempt_query (networkPendingCount : Int) (st : NonceState)
    (userId hash : String) (call : SubmitCall)
    (hcall : submitChangeRoute userId hash = some call) :
    call.nonceOverride = none ∧
    (getAndIncrementNonce st).2.queryCount = st.queryCount ∧
    (getAndIncrementNonce st).1 = st.currentNonce ∧
    (st.nonceInitialized = true → initNonce networkPendingCount st = (st.currentNonce, st)) := by
  refine ⟨?_, rfl, rfl, fun hinit => by simp [initNonce, hinit]⟩
  by_cases hempty : userId = "" ∨ hash = ""
  · simp [submitChangeRoute, hempty] at hcall
  · simp [submitChangeRoute, hempty] at hcall
    rw [← hcall]

/-- Witness for C5's amended theorem at concrete inputs. -/
theorem nonce_no_per_attempt_query_witness :
    (⟨"12", "0xabc", none⟩ : SubmitCall).nonceOverride = none ∧
    (getAndIncrementNonce ⟨some 7, true, 1⟩).2.queryCount = (⟨some 7, true, 1⟩ : NonceState).queryCount ∧
    (getAndIncrementNonce ⟨some 7, true, 1⟩).1 = (⟨some 7, true, 1⟩ : NonceState).currentNonce ∧
    ((⟨some 7, true, 1⟩ : NonceState).nonceInitialized = true →
      initNonce 9 ⟨some 7, true, 1⟩ =
        ((⟨some 7, true, 1⟩ : NonceState).currentNonce, ⟨some 7, true, 1⟩)) :=
  nonce_no_per_attempt_query 9 ⟨some 7, true, 1⟩ "12" "0xabc" ⟨"12", "0xabc", none⟩
    (by decide)

/-! ## C6: the approve / reject routes
(`contractRoutes.js` lines 45-71)

The handlers call `contract.approve` / `contract.reject` and answer the
HTTP request; the `sc_blockchain` service has no database connection at
all (its `index.js` loads only express, cors and these routes), so no
off-chain `blockchain_status` is ever touched — modelled by threading
the off-chain status through the handler unchanged. -/

/-- Off-chain `blockchain_status` of a `user_chain_records` row:
`P` = Pending, `A` = Approved, `R` = Rejected. -/
inductive ChainStatus where
  | P
  | A
  | R
deriving DecidableEq, Repr

/-- Observable outcome of one approve/reject request: the HTTP result
and the off-chain status of the entity's pending chain record after the
handler ran. -/
structure ApprovalOutcome where
  httpOk : Bool
  txHash : Option String
  offChainStatus : ChainStatus
deriving DecidableEq, Repr

/-- Handler of `POST /api/approve`: `contract.approve(id, reason)` then
`tx.wait()`; on success answer 200 with the transaction hash, on a
thrown error answer 500.  No statement touches the off-chain store. -/
def approveRoute (ledgerResult : Option String) (offChainStatus : ChainStatus) :
    ApprovalOutcome :=
  match ledgerResult with
  | some tx => ⟨true, some tx, offChainStatus⟩
  | none => ⟨false, none, offChainStatus⟩

/-- Handler of `POST /api/reject`: same shape as `approveRoute` with
`contract.reject`. -/
def rejectRoute (ledgerResult : Option String) (offChainStatus : ChainStatus) :
    ApprovalOutcome :=
  match ledgerResult with
  | some tx => ⟨true, some tx, offChainStatus⟩
  | none => ⟨false, none, offChainStatus⟩

/-- C6: the approve / reject handlers never update the off-chain audit
record's status.  When the ledger call fails the status indeed remains
Pending, but when the ledger call succeeds the status ALSO remains
Pending instead of becoming Approved / Rejected — contradicting the
claimed "updated if and only if the ledger call succeeds" (and the
repository's own POC_FLOW_GUIDE, which promises
`blockchain_status = 'A'` after a successful approve). -/
theorem approve_reject_leave_offchain_status_pending :
    (approveRoute (some "0xfeed") ChainStatus.P).offChainStatus = ChainStatus.P ∧
    (approveRoute (some "0xfeed") ChainStatus.P).offChainStatus ≠ ChainStatus.A ∧
    (approveRoute none ChainStatus.P).offChainStatus = ChainStatus.P ∧
    (rejectRoute (some "0xfeed") ChainStatus.P).offChainStatus = ChainStatus.P ∧
    (rejectRoute (some "0xfeed") ChainStatus.P).offChainStatus ≠ ChainStatus.R ∧
    (rejectRoute none ChainStatus.P).offChainStatus = ChainStatus.P := by
  decide

/-! ## C7: retrieval — typed not-found versus failures
(`_getFromPolygon`, `_getFromMock`, `verifyRecordHash` in the blockchain
services) -/

/-- The parsed `result.change` of `GET /api/get-change/:id` (a
never-written contract slot yields the default struct: empty hash). -/
structure ChangeData where
  hash : String
  status : Nat
  reason : String
deriving DecidableEq, Repr

/-- Outcome of the `fetch` in `_getFromPolygon`. -/
inductive FetchResult where
  /-- an HTTP response: `response.ok`, the body's `success` flag, and
  the parsed change (ignored by the caller unless `ok && success`). -/
  | resp (ok : Bool) (success : Bool) (change : ChangeData)
  /-- the `fetch` itself rejected. -/
  | netFail (msg : String)
deriving Repr

/-- Function `_getFromPolygon` (polygon-mode blockchain service, lines 348-377):
a rejected fetch propagates as a thrown error; a response with
`!response.ok || !result.success` returns `null`; otherwise the change
is returned. -/
def getFromPolygon (fetch : FetchResult) : Except String (Option ChangeData) :=
  match fetch with
  | .netFail msg => .error msg
  | .resp ok success change =>
      if ok && success then .ok (some change) else .ok none

/-- Function `_getFromMock` (lines 121-133): look the record up in the in-memory
ledger; absent entries return `null`, never throw. -/
def getFromMock (entry : Option ChangeData) : Except String (Option ChangeData) :=
  .ok entry

/-- Result of `verifyRecordHash`. -/
structure VerifyResult where
  valid : Bool
  reason : String
deriving DecidableEq, Repr

/-- Function `verifyRecordHash` (lines 55-82): a thrown retrieval error is
re-thrown; `null` or an empty (falsy) hash yields the typed not-found
result; otherwise the hashes are compared exactly. -/
def verifyRecordHash (stored : Except String (Option ChangeData)) (hash : String) :
    Except String VerifyResult :=
  match stored with
  | .error e => .error e
  | .ok none => .ok ⟨false, "Record not found on blockchain"⟩
  | .ok (some d) =>
      if d.hash = "" then .ok ⟨false, "Record not found on blockchain"⟩
      else if d.hash = hash then .ok ⟨true, "Hash matches on-chain record"⟩
      else .ok ⟨false, "Hash mismatch - data may have been tampered"⟩

/-- C7 (amended): retrieval of a never-recorded entity yields the typed
not-found verification result, not an exception — in mock mode (absent
entry), and in polygon mode (a never-written slot reads back with an
empty hash).  A transport-level network failure propagates as an error,
distinct from not-found.  However, an HTTP error response (server-side
failure) in the polygon path is NOT distinguishable: it yields the same
not-found result (see `polygon_server_error_looks_not_found`). -/
theorem retrieve_not_found_typed (hash msg : String) :
    verifyRecordHash (getFromMock none) hash =
      Except.ok ⟨false, "Record not found on blockchain"⟩ ∧
    verifyRecordHash (getFromPolygon (FetchResult.resp true true ⟨"", 0, ""⟩)) hash =
      Except.ok ⟨false, "Record not found on blockchain"⟩ ∧
    verifyRecordHash (getFromPolygon (FetchResult.netFail msg)) hash =
      Except.error msg := by
  refine ⟨rfl, ?_, rfl⟩
  simp [getFromPolygon, verifyRecordHash]

/-- C7 counterexample: a server-error response (HTTP 500, e.g. an RPC
failure inside `GET /api/get-change/:id`) during polygon retrieval
surfaces as exactly the same typed not-found result as a never-recorded
entity — callers cannot distinguish "never recorded" from this
failure. -/
theorem polygon_server_error_looks_not_found :
    verifyRecordHash (getFromPolygon (FetchResult.resp false false ⟨"", 0, ""⟩)) "0xdead" =
      verifyRecordHash (getFromMock none) "0xdead" ∧
    verifyRecordHash (getFromPolygon (FetchResult.resp false false ⟨"", 0, ""⟩)) "0xdead" =
      Except.ok ⟨false, "Record not found on blockchain"⟩ :=
  ⟨rfl, rfl⟩

/-! ## C9: Fabric gateway session lifecycle
(`fabric.service.js`: `connect`, `disconnect`, `submitTransaction`,
`evaluateTransaction`) -/

/-- Environment of one chaincode call: whether `connect` (gateway
connect / getNetwork / getContract) rejects, and the outcome of the
contract invocation itself. -/
structure FabricEnv where
  connectThrows : Option String
  callResult : Except String String
deriving Repr

/-- Gateway session state: is `this.gateway` a live connection? -/
structure FabState where
  gatewayOpen : Bool
deriving DecidableEq, Repr

/-- Function `connect(userId)`: `this.gateway = new Gateway()` happens before the
awaited `gateway.connect(...)`, so the gateway object is held even when
the connect rejects. -/
def fabricConnect (env : FabricEnv) : Except String Unit × FabState :=
  match env.connectThrows with
  | some e => (.error e, ⟨true⟩)
  | none => (.ok (), ⟨true⟩)

/-- Function `disconnect()`: `if (this.gateway) { this.gateway.disconnect();
this.gateway = null; }`. -/
def fabricDisconnect (st : FabState) : FabState :=
  if st.gatewayOpen then ⟨false⟩ else st

/-- Function `submitTransaction(userId, functionName, ...args)`: connect, submit,
disconnect, then parse and return; the catch block disconnects and
rethrows. -/
def submitTransaction (env : FabricEnv) : Except String String × FabState :=
  match fabricConnect env with
  | (.error e, st1) => (.error e, fabricDisconnect st1)
  | (.ok _, st1) =>
      match env.callResult with
      | .error e => (.error e, fabricDisconnect st1)
      | .ok bytes => (.ok bytes, fabricDisconnect st1)

/-- Function `evaluateTransaction(userId, functionName, ...args)`: identical
session lifecycle around `contract.evaluateTransaction`. -/
def evaluateTransaction (env : FabricEnv) : Except String String × FabState :=
  match fabricConnect env with
  | (.error e, st1) => (.error e, fabricDisconnect st1)
  | (.ok _, st1) =>
      match env.callResult with
      | .error e => (.error e, fabricDisconnect st1)
      | .ok bytes => (.ok bytes, fabricDisconnect st1)

/-- C9: every chaincode Store / Retrieve call releases its gateway
session on every exit path — whether the call returns bytes, the
invocation throws, or the connect itself throws, the session is closed
afterwards; and the session genuinely opens during a call
(`fabricConnect` leaves the gateway open until `fabricDisconnect`
closes it). -/
theorem fabric_session_released_on_all_paths (env : FabricEnv) :
    (submitTransaction env).2.gatewayOpen = false ∧
    (evaluateTransaction env).2.gatewayOpen = false ∧
    (fabricConnect ⟨none, Except.ok "r"⟩).2.gatewayOpen = true := by
  obtain ⟨ct, cr⟩ := env
  cases ct <;> cases cr <;> simp [submitTransaction, evaluateTransaction,
    fabricConnect, fabricDisconnect]

end FabricChain
